import Mathlib

/-!
Shallow embedding of the personal-ai-agent repository (Python sources under
`src/`) together with verification of the frozen specification claims.

Conventions of the embedding:
* Python strings are Lean `String`s; `str.lower()` is `lowerStr` (ASCII-only
  case folding, which is what matters for the keyword tables in the source);
  the Python substring test `a in b` is `strIn a b`.
* Python `float` scores and confidences are embedded as exact rationals `ℚ`
  (all constants appearing in the source, 0.2, 0.5, 0.8 ..., are exact in
  binary-independent arithmetic used only through `+ * min ≤`).
* `datetime.now()` is an abstract tick `now : Nat` threaded explicitly.
* Fallible effects (LLM vendor calls, storage writes) are `Except String α`
  values supplied as parameters, so theorems quantify over every possible
  outcome of those calls.
-/

namespace Spec2Proof

/-! ### String helpers (embedding of `str.lower`, `in`, `str.split`) -/

/-- ASCII lower-casing of one character, mirroring what `str.lower()` does to
the ASCII keyword tables of the source (non-ASCII characters are unchanged). -/
def lowerChar (c : Char) : Char :=
  if 'A' ≤ c ∧ c ≤ 'Z' then Char.ofNat (c.toNat + 32) else c

/-- Embedding of `str.lower()`. -/
def lowerStr (s : String) : String :=
  ⟨s.data.map lowerChar⟩

/-- Decides whether the first list is a prefix of the second. -/
def isPrefixL : List Char → List Char → Bool
  | [], _ => true
  | _ :: _, [] => false
  | a :: as, b :: bs => a = b && isPrefixL as bs

/-- Decides whether `needle` occurs as a contiguous sublist of `hay`:
the embedding of Python's substring test `needle in hay`. -/
def containsSub (needle : List Char) : List Char → Bool
  | [] => isPrefixL needle []
  | b :: bs => isPrefixL needle (b :: bs) || containsSub needle bs

/-- Python's `needle in hay` on strings. -/
def strIn (needle hay : String) : Bool :=
  containsSub needle.data hay.data

/-- Whitespace test matching Python's `str.split()` separator class for the
inputs occurring in this code base. -/
def isWs (c : Char) : Bool :=
  c = ' ' || c = '\t' || c = '\n' || c = '\r'

/-- Helper for `splitWs`: accumulates the current word (reversed). -/
def splitWsAux : List Char → List Char → List (List Char)
  | [], acc => if acc.isEmpty then [] else [acc.reverse]
  | c :: cs, acc =>
    if isWs c then
      if acc.isEmpty then splitWsAux cs [] else acc.reverse :: splitWsAux cs []
    else
      splitWsAux cs (c :: acc)

/-- Embedding of Python's `str.split()` (split on whitespace runs, dropping
empty words). -/
def splitWs (s : String) : List String :=
  (splitWsAux s.data []).map List.asString

/-! ### Agent orchestrator: `AgentResponse` and intent analysis
(`src/core/agent.py`) -/

/-- Embedding of the `AgentResponse` dataclass (src/core/agent.py lines
24-32); `metadata` is embedded as a string-to-string association list, which
is enough for every claim touching it. -/
structure AgentResponse where
  content : String
  confidence : ℚ
  sources : List String
  actions_taken : List String
  suggestions : List String
  metadata : List (String × String)
deriving DecidableEq

/-- Lookup in the embedded metadata map. -/
def metaLookup (m : List (String × String)) (k : String) : Option String :=
  (m.find? (fun p => p.1 = k)).map Prod.snd

/-- The `intent_mapping` keyword table of `_analyze_intent`
(src/core/agent.py lines 138-144), in declaration order. -/
def intentKeywords : List (String × List String) :=
  [("task", ["タスク", "todo", "やること", "予定", "スケジュール"]),
   ("email", ["メール", "email", "連絡", "返信", "draft"]),
   ("search", ["検索", "調べて", "探して", "情報", "web"]),
   ("question", ["質問", "教えて", "どう", "なぜ", "?", "？"]),
   ("analysis", ["分析", "統計", "データ", "傾向", "パターン"])]

/-- Embedding of `sum(1 for keyword in keywords if keyword in user_input_lower)`. -/
def keywordScore (inputLower : String) (kws : List String) : Nat :=
  (kws.filter (fun k => strIn k inputLower)).length

/-- The non-zero intent scores of `_analyze_intent`, in table order (Python
dict insertion order). -/
def intentScores (input : String) : List (String × Nat) :=
  let low := lowerStr input
  (intentKeywords.map (fun p => (p.1, keywordScore low p.2))).filter
    (fun p => 0 < p.2)

/-- Embedding of Python's `max(keys, key=score)` over a dict in insertion
order: the first key attaining the maximal score. -/
def argmaxFirst : List (String × Nat) → Option String
  | [] => none
  | (k, v) :: rest =>
    match argmaxFirst rest with
    | none => some k
    | some k' =>
      let v' := ((rest.find? (fun p => p.1 = k')).map Prod.snd).getD 0
      if v' > v then some k' else some k

/-- Primary intent selected by `_analyze_intent` (src/core/agent.py lines
146-166): the highest-scoring bucket, ties broken by declaration order, or
"general" when no bucket scores. -/
def analyzeIntentPrimary (input : String) : String :=
  match argmaxFirst (intentScores input) with
  | some k => k
  | none => "general"

/-! ### Task manager intent analysis (`src/modules/task_manager.py`) -/

/-- Embedding of the `TaskStatus` enumeration. -/
inductive TaskStatus where
  | pending
  | in_progress
  | completed
  | cancelled
  | paused
deriving DecidableEq

/-- Embedding of the `TaskPriority` enumeration. -/
inductive TaskPriority where
  | low
  | medium
  | high
  | urgent
deriving DecidableEq

/-- Decides whether any keyword of the list occurs in the (already lowered)
input: `any(word in user_input_lower for word in ...)`. -/
def anyIn (kws : List String) (low : String) : Bool :=
  kws.any (fun k => strIn k low)

/-- The `priority_keywords` table (src/modules/task_manager.py lines 65-70),
in dict declaration order URGENT, HIGH, MEDIUM, LOW. -/
def priorityKeywords : List (TaskPriority × List String) :=
  [(.urgent, ["urgent", "asap", "immediately", "critical"]),
   (.high, ["important", "priority", "high", "soon"]),
   (.medium, ["normal", "medium", "standard"]),
   (.low, ["later", "low", "when_possible", "someday"])]

/-- Result of `_analyze_task_intent` (src/modules/task_manager.py lines
93-141). -/
structure TaskIntent where
  action : String
  priority : Option TaskPriority
  status : Option (List TaskStatus)
  due : Option String
  confidence : ℚ
deriving DecidableEq

/-- Action determination chain of `_analyze_task_intent` (lines 98-110). -/
def taskAction (low : String) : String :=
  if anyIn ["create", "add", "new", "register", "todo"] low then "create"
  else if anyIn ["list", "show", "display", "view"] low then "list"
  else if anyIn ["update", "change", "modify", "edit"] low then "update"
  else if anyIn ["complete", "finish", "done"] low then "complete"
  else if anyIn ["delete", "remove", "cancel"] low then "delete"
  else "general"

/-- Priority-filter extraction of `_analyze_task_intent` (lines 115-119):
first bucket, in table order, with a keyword hit. -/
def taskPriorityFilter (low : String) : Option TaskPriority :=
  (priorityKeywords.find? (fun p => anyIn p.2 low)).map Prod.fst

/-- Status-filter extraction (lines 121-127). -/
def taskStatusFilter (low : String) : Option (List TaskStatus) :=
  if strIn "in progress" low || strIn "working" low then some [.in_progress]
  else if strIn "completed" low then some [.completed]
  else if strIn "pending" low || strIn "remaining" low then
    some [.pending, .in_progress]
  else none

/-- Due-date-filter extraction (lines 129-135). -/
def taskDueFilter (low : String) : Option String :=
  if strIn "today" low then some "today"
  else if strIn "tomorrow" low then some "tomorrow"
  else if strIn "this week" low then some "this_week"
  else none

/-- Embedding of `_analyze_task_intent` (src/modules/task_manager.py lines
93-141). -/
def analyzeTaskIntent (input : String) : TaskIntent :=
  let low := lowerStr input
  { action := taskAction low
    priority := taskPriorityFilter low
    status := taskStatusFilter low
    due := taskDueFilter low
    confidence := 4/5 }

/-- Result shape returned by the task-manager request handlers (the
`message`/`actions`/`suggestions` keys read by `_handle_task_intent`). -/
structure TaskResult where
  message : String
  actions : List String
  suggestions : List String
deriving DecidableEq

/-- Structured task information extracted by the LLM in the create flow;
only the title matters for the claims. -/
structure TaskInfo where
  title : String
deriving DecidableEq

/-- Embedding of `_create_task_from_input` (src/modules/task_manager.py lines
143-195): the LLM extraction call and JSON parse are abstracted as an
`Except`-valued parameter; success yields the `task_created` action, any
failure is caught and yields the fallback result. -/
def createTaskFromInput (llm : Except String TaskInfo) : TaskResult :=
  match llm with
  | .ok info =>
    { message := "Created task: " ++ info.title
      actions := ["task_created"]
      suggestions := ["Would you like to add more details?",
                      "Set dependencies or deadline?"] }
  | .error _ =>
    { message := "Failed to create task. Please try again."
      actions := []
      suggestions := ["Please provide specific task details"] }

/-- Embedding of `_general_task_assistance` (lines 373-405): LLM success
returns the generated advice with the `general_assistance` action, failure is
caught and yields the fallback. -/
def generalTaskAssistance (llm : Except String String) : TaskResult :=
  match llm with
  | .ok content =>
    { message := content
      actions := ["general_assistance"]
      suggestions := ["Need help with specific task creation or management?",
                      "Check today's tasks?"] }
  | .error _ =>
    { message := "How can I help you with tasks?"
      actions := []
      suggestions := ["Create a new task", "Check existing tasks",
                      "Get task management advice"] }

/-- Embedding of `process_request` dispatch (src/modules/task_manager.py
lines 74-91).  The list/update/complete branches depend on the task store and
further LLM calls and are abstracted as parameters; the delete branch calls
`_delete_task_from_input`, which is not defined anywhere in the source file,
so that branch raises. -/
def processRequest (input : String) (llmCreate : Except String TaskInfo)
    (llmGeneral : Except String String)
    (listRes updateRes completeRes : TaskResult) : Except String TaskResult :=
  match (analyzeTaskIntent input).action with
  | "create" => .ok (createTaskFromInput llmCreate)
  | "list" => .ok listRes
  | "update" => .ok updateRes
  | "complete" => .ok completeRes
  | "delete" => .error "AttributeError: _delete_task_from_input"
  | _ => .ok (generalTaskAssistance llmGeneral)

/-- Embedding of `_handle_task_intent` (src/core/agent.py lines 194-205):
wraps a task-manager result into an `AgentResponse` with
`sources = ["TaskManager"]` and the default confidence 0.8 (the handlers
above never supply a `confidence` key). -/
def handleTaskIntent (r : TaskResult) : AgentResponse :=
  { content := r.message
    confidence := 4/5
    sources := ["TaskManager"]
    actions_taken := r.actions
    suggestions := r.suggestions
    metadata := [("module", "task_manager")] }

/-! ### `process_input` catch-all (`src/core/agent.py` lines 80-131) -/

/-- The error `AgentResponse` built by the `except` clause of `process_input`
(src/core/agent.py lines 122-131). -/
def errorResponse (e : String) : AgentResponse :=
  { content := "申し訳ありません。処理中にエラーが発生しました: " ++ e
    confidence := 0
    sources := []
    actions_taken := []
    suggestions := ["エラー詳細を確認して再試行してください"]
    metadata := [("error", e)] }

/-- The body of the `try` block of `process_input` (lines 98-120): context
update, intent analysis (pure), module routing, memory store, and — when
learning is enabled — the learning-data update.  Each fallible stage is a
parameter, so the definition covers every possible exception behaviour. -/
def pipelineBody (ctxRes : Except String Unit)
    (routeRes : Except String AgentResponse)
    (storeRes : Except String Unit) (learnEnabled : Bool)
    (learnRes : Except String Unit) : Except String AgentResponse := do
  let _ ← ctxRes
  let resp ← routeRes
  let _ ← storeRes
  if learnEnabled then
    let _ ← learnRes
  pure resp

/-- Embedding of `process_input` (src/core/agent.py lines 80-131): the
initialize-if-not-running guard sits before the `try` block (so an
initialization failure propagates), then the pipeline body runs under the
catch-all that converts any raised exception into `errorResponse`. -/
def processInputM (running : Bool) (initRes : Except String Unit)
    (ctxRes : Except String Unit) (routeRes : Except String AgentResponse)
    (storeRes : Except String Unit) (learnEnabled : Bool)
    (learnRes : Except String Unit) : Except String AgentResponse :=
  match (if running then Except.ok () else initRes) with
  | .error e => .error e
  | .ok () =>
    match pipelineBody ctxRes routeRes storeRes learnEnabled learnRes with
    | .ok r => .ok r
    | .error e => .ok (errorResponse e)

/-! ### Association-list embedding of Python dictionaries -/

/-- Lookup in a Python dict embedded as an insertion-ordered association
list. -/
def lookupAL {β : Type} (m : List (String × β)) (k : String) : Option β :=
  (m.find? (fun p => p.1 = k)).map Prod.snd

/-- In-place overwrite of the entry of an existing key. -/
def updateAL {β : Type} (m : List (String × β)) (k : String) (b : β) :
    List (String × β) :=
  m.map (fun p => if p.1 = k then (p.1, b) else p)

/-- Embedding of `del d[key]`. -/
def eraseAL {β : Type} (m : List (String × β)) (k : String) :
    List (String × β) :=
  m.filter (fun p => p.1 ≠ k)

/-- Embedding of `d[key] = value`: overwrite in place when the key exists,
otherwise append (Python dicts preserve insertion order). -/
def insertAL {β : Type} (m : List (String × β)) (k : String) (b : β) :
    List (String × β) :=
  if (lookupAL m k).isSome then updateAL m k b else m ++ [(k, b)]

/-- Helper: overwriting the entry of a present key is observed by a
subsequent lookup. -/
theorem lookupAL_update {β : Type} (m : List (String × β)) (k : String)
    (b : β) (h : (lookupAL m k).isSome) : lookupAL (updateAL m k b) k = some b := by
  induction m with
  | nil => simp [lookupAL] at h
  | cons p rest ih =>
    simp only [updateAL, List.map_cons]
    by_cases hp : p.1 = k
    · rw [if_pos hp]
      simp [lookupAL, List.find?, hp]
    · rw [if_neg hp]
      have h' : (lookupAL rest k).isSome = true := by
        simpa [lookupAL, List.find?, hp] using h
      simpa [lookupAL, List.find?, hp, updateAL] using ih h'

/-- Helper: appending a fresh key is observed by a subsequent lookup. -/
theorem lookupAL_append_new {β : Type} (m : List (String × β)) (k : String)
    (b : β) (h : lookupAL m k = none) :
    lookupAL (m ++ [(k, b)]) k = some b := by
  induction m with
  | nil => simp [lookupAL, List.find?]
  | cons p rest ih =>
    by_cases hp : p.1 = k
    · simp [lookupAL, List.find?, hp] at h
    · have h' : lookupAL rest k = none := by
        simpa [lookupAL, List.find?, hp] using h
      simpa [lookupAL, List.find?, hp] using ih h'

/-- Helper: `insertAL` always makes the inserted entry visible. -/
theorem lookupAL_insert {β : Type} (m : List (String × β)) (k : String)
    (b : β) : lookupAL (insertAL m k b) k = some b := by
  unfold insertAL
  by_cases h : (lookupAL m k).isSome
  · rw [if_pos h]
    exact lookupAL_update m k b h
  · rw [if_neg h]
    exact lookupAL_append_new m k b (by
      cases hh : lookupAL m k
      · rfl
      · exact absurd (by simp [hh]) h)

/-! ### Task store and `complete_task` (`src/modules/task_manager.py`) -/

/-- Embedding of the `Task` dataclass restricted to the fields that
`complete_task` reads or writes (src/modules/task_manager.py lines 30-47);
timestamps are abstract ticks, `actual_duration` a signed tick difference. -/
structure Task where
  title : String
  status : TaskStatus
  priority : TaskPriority
  created_at : Nat
  updated_at : Nat
  completed_at : Option Nat
  actual_duration : Option Int
deriving DecidableEq

/-- Embedding of `complete_task` (src/modules/task_manager.py lines
282-299): the unknown-id check, the status/timestamp mutations in source
order, and the in-progress check that the source performs only after the
status has already been overwritten to completed. -/
def completeTask (now : Nat) (ts : List (String × Task)) (tid : String) :
    Bool × List (String × Task) :=
  match lookupAL ts tid with
  | none => (false, ts)
  | some t =>
    let t1 := { t with status := .completed, completed_at := some now,
                       updated_at := now }
    let t2 := if t1.status = .in_progress
              then { t1 with actual_duration :=
                               some ((now : Int) - (t1.updated_at : Int)) }
              else t1
    (true, updateAL ts tid t2)

/-! ### Duration parsing (`src/modules/task_manager.py` lines 491-508) -/

/-- Numeric value of a digit run. -/
def natOfDigits (ds : List Char) : Nat :=
  ds.foldl (fun n c => 10 * n + (c.toNat - '0'.toNat)) 0

/-- Attempts the regex `(\d+)\s*<word>` anchored at the start of `cs`:
one or more digits, optional whitespace, then the literal word. -/
def matchNumWord (word : List Char) (cs : List Char) : Option Nat :=
  let ds := cs.takeWhile Char.isDigit
  if ds.isEmpty then none
  else
    let rest := (cs.dropWhile Char.isDigit).dropWhile isWs
    if isPrefixL word rest then some (natOfDigits ds) else none

/-- Embedding of `re.search(r'(\d+)\s*<word>', s)`: the leftmost match of
digits followed by optional whitespace and the literal word. -/
def findNumWord (word : List Char) : List Char → Option Nat
  | [] => none
  | c :: cs =>
    match matchNumWord word (c :: cs) with
    | some n => some n
    | none => findNumWord word cs

/-- Embedding of the body of `_parse_duration` (src/modules/task_manager.py
lines 497-508): the source searches for the literal English words `hour` and
`minute`; returns (hours, minutes) when either count is positive. -/
def parseDurationS (s : String) : Option (Nat × Nat) :=
  let hours := (findNumWord "hour".data s.data).getD 0
  let minutes := (findNumWord "minute".data s.data).getD 0
  if hours > 0 || minutes > 0 then some (hours, minutes) else none

/-- Embedding of `_parse_duration` including the empty-argument guard
(lines 491-495). -/
def parseDuration : Option String → Option (Nat × Nat)
  | none => none
  | some s => parseDurationS s

/-! ### Context window (`src/core/context.py`) and short-term memory
(`src/core/memory.py`) -/

/-- Embedding of the `ContextItem` dataclass restricted to the fields the
window claims touch (src/core/context.py lines 15-22). -/
structure ContextItem where
  content : String
  context_type : String
  importance : ℚ
deriving DecidableEq

/-- Append on a `deque(maxlen = cap)` (src/core/context.py line 57): the
element is appended and, if the deque would exceed its capacity, elements
are discarded from the opposite (oldest) end. -/
def pushWindow (cap : Nat) (l : List ContextItem) (x : ContextItem) :
    List ContextItem :=
  let l' := l ++ [x]
  if cap < l'.length then l'.drop (l'.length - cap) else l'

/-- The three kinds of history-appending calls on the context manager. -/
inductive CtxEvent where
  | userInput (s : String)
  | agentResponse (s : String)
  | systemEvent (s : String)

/-- The `ContextItem` each call constructs: `update_context` appends a
`user_input` item with importance 0.8 (lines 98-106), `add_agent_response`
an `agent_response` item with importance 0.6 (lines 117-128),
`add_system_event` a `system_event` item with importance 0.4 (lines
130-141). -/
def ctxItemOf : CtxEvent → ContextItem
  | .userInput s => ⟨s, "user_input", 4/5⟩
  | .agentResponse s => ⟨s, "agent_response", 3/5⟩
  | .systemEvent s => ⟨s, "system_event", 2/5⟩

/-- One history-appending call on the context manager. -/
def ctxStep (cap : Nat) (l : List ContextItem) (e : CtxEvent) :
    List ContextItem :=
  pushWindow cap l (ctxItemOf e)

/-- The context history after a sequence of calls, starting from the empty
history built by `ContextManager.__init__`. -/
def runCtxEvents (cap : Nat) (es : List CtxEvent) : List ContextItem :=
  es.foldl (ctxStep cap) []

/-- Embedding of the short-term-memory push of `store_interaction`
(src/core/memory.py lines 121-126): append the new id, then `pop(0)` once
when the list length exceeds the context window size. -/
def pushShortTerm (cap : Nat) (l : List String) (mid : String) :
    List String :=
  let l' := l ++ [mid]
  if cap < l'.length then l'.drop 1 else l'

/-- The short-term memory after a sequence of stored interactions, starting
from the empty list. -/
def runShortTerm (cap : Nat) (mids : List String) : List String :=
  mids.foldl (pushShortTerm cap) []

/-- Helper: one window push preserves the capacity bound. -/
theorem pushWindow_length_le (cap : Nat) (l : List ContextItem)
    (x : ContextItem) (h : l.length ≤ cap) :
    (pushWindow cap l x).length ≤ cap := by
  unfold pushWindow
  by_cases hc : cap < (l ++ [x]).length
  · rw [if_pos hc]
    simp only [List.length_drop, List.length_append, List.length_singleton]
    omega
  · rw [if_neg hc]
    omega

/-- Helper: one short-term push preserves the capacity bound. -/
theorem pushShortTerm_length_le (cap : Nat) (l : List String) (mid : String)
    (h : l.length ≤ cap) : (pushShortTerm cap l mid).length ≤ cap := by
  unfold pushShortTerm
  by_cases hc : cap < (l ++ [mid]).length
  · rw [if_pos hc]
    simp only [List.length_drop, List.length_append, List.length_singleton]
    simp only [List.length_append, List.length_singleton] at hc
    omega
  · rw [if_neg hc]
    omega

/-- Helper: the folded window bound, generalized over the start state. -/
theorem runCtx_length_le_aux (cap : Nat) (es : List CtxEvent) :
    ∀ l : List ContextItem, l.length ≤ cap →
      (es.foldl (ctxStep cap) l).length ≤ cap := by
  induction es with
  | nil => intro l h; simpa using h
  | cons e es ih =>
    intro l h
    exact ih _ (pushWindow_length_le cap l (ctxItemOf e) h)

/-- Helper: the folded short-term bound, generalized over the start state. -/
theorem runShortTerm_length_le_aux (cap : Nat) (mids : List String) :
    ∀ l : List String, l.length ≤ cap →
      (mids.foldl (pushShortTerm cap) l).length ≤ cap := by
  induction mids with
  | nil => intro l h; simpa using h
  | cons m ms ih =>
    intro l h
    exact ih _ (pushShortTerm_length_le cap l m h)

/-! ### Backup history and retention (`src/storage/backup.py`) -/

/-- Embedding of `BackupInfo` restricted to the fields the retention logic
reads (src/storage/backup.py lines 20-30). -/
structure BackupInfo where
  backup_id : String
  created_at : Nat
deriving DecidableEq

/-- Default of the `max_backups` constructor parameter
(src/storage/backup.py line 42). -/
def defaultMaxBackups : Nat := 10

/-- History effect of a successful `create_full_backup` /
`create_config_backup` (src/storage/backup.py lines 139, 200): the new
`BackupInfo` is appended to `backup_history`; neither creation path invokes
any retention cleanup. -/
def createBackupHistory (h : List BackupInfo) (b : BackupInfo) :
    List BackupInfo :=
  h ++ [b]

/-- Creation-time ordering used by `_cleanup_old_backups`. -/
def byCreated (a b : BackupInfo) : Prop :=
  a.created_at ≤ b.created_at

instance : DecidableRel byCreated := fun a b => Nat.decLe a.created_at b.created_at

instance : IsTotal BackupInfo byCreated :=
  ⟨fun a b => Nat.le_total a.created_at b.created_at⟩

instance : IsTrans BackupInfo byCreated :=
  ⟨fun _ _ _ hab hbc => Nat.le_trans hab hbc⟩

/-- History effect of `delete_backup` (src/storage/backup.py line 317):
every entry with the given id is filtered out. -/
def deleteBackupHistory (h : List BackupInfo) (bid : String) :
    List BackupInfo :=
  h.filter (fun x => x.backup_id ≠ bid)

/-- Embedding of `_cleanup_old_backups` (src/storage/backup.py lines
498-511), run from `initialize`: when the history exceeds `max_backups`, the
entries are sorted by creation time (Python's stable sort, embedded as
insertion sort) and each entry of the slice `sorted_backups[:-max_backups]`
is deleted through `delete_backup`.  The slice is the oldest
`len - max_backups` entries when `max_backups` is positive, but the empty
slice when `max_backups = 0` (Python's `[:-0]` is `[:0]`), in which case
the sweep deletes nothing. -/
def cleanupOldBackups (maxB : Nat) (h : List BackupInfo) : List BackupInfo :=
  if h.length ≤ maxB then h
  else
    let sorted := List.insertionSort byCreated h
    let toDelete := if maxB = 0 then [] else sorted.take (h.length - maxB)
    toDelete.foldl (fun acc b => deleteBackupHistory acc b.backup_id) h

/-- Helper: folding `delete_backup` over a list of entries filters the
history by exclusion of all their ids. -/
theorem foldl_delete_eq_filter (S : List BackupInfo) :
    ∀ acc : List BackupInfo,
      S.foldl (fun acc b => deleteBackupHistory acc b.backup_id) acc
        = acc.filter (fun x => !(S.any (fun b => x.backup_id == b.backup_id))) := by
  induction S with
  | nil =>
    intro acc
    simp
  | cons b S ih =>
    intro acc
    rw [List.foldl_cons]
    rw [ih]
    unfold deleteBackupHistory
    rw [List.filter_filter]
    congr 1
    funext x
    by_cases hx : x.backup_id = b.backup_id <;>
      simp [hx, Bool.and_comm]

/-! ### Memory system: importance scoring and retrieval
(`src/core/memory.py`) -/

/-- Embedding of the `MemoryItem` dataclass restricted to the fields that
retrieval and importance scoring touch (src/core/memory.py lines 17-29). -/
structure MemoryItem where
  mem_id : String
  content : String
  content_type : String
  importance : ℚ
  access_count : Nat
  last_accessed : Nat
  tags : List String
deriving DecidableEq

/-- Base importance per content type in `_calculate_importance`
(src/core/memory.py lines 331-336), defaulting to 0.5. -/
def baseImportance (ct : String) : ℚ :=
  if ct = "interaction" then 1/2
  else if ct = "learning" then 7/10
  else if ct = "knowledge" then 3/5
  else if ct = "preference" then 4/5
  else 1/2

/-- The two metadata fields `_calculate_importance` reads
(`confidence` defaulting to 0, and `user_feedback`). -/
structure MetaInfo where
  confidence : Option ℚ
  user_feedback : Option String
deriving DecidableEq

/-- Embedding of `_calculate_importance` (src/core/memory.py lines
326-350): base importance plus a length factor `min(len/1000, 1) * 0.2`
plus a metadata factor (0.1 when confidence > 0.8, plus 0.2 when
user feedback is "positive"), clamped to 1.0. -/
def calcImportance (content : String) (ct : String) (md : Option MetaInfo) :
    ℚ :=
  let lengthFactor := min ((content.length : ℚ) / 1000) 1 * (1/5)
  let metaFactor : ℚ :=
    match md with
    | none => 0
    | some m =>
      (if (8 : ℚ)/10 < m.confidence.getD 0 then (1 : ℚ)/10 else 0) +
      (if m.user_feedback = some "positive" then (1 : ℚ)/5 else 0)
  min (baseImportance ct + lengthFactor + metaFactor) 1

/-- Query words of `retrieve_memories`: `query.lower().split()`
(src/core/memory.py line 198). -/
def queryWords (q : String) : List String :=
  splitWs (lowerStr q)

/-- Keyword relevance of `retrieve_memories` (src/core/memory.py lines
208-217): +1.0 per query word occurring in the lowered content, +0.5 per
query word occurring inside any lowered tag. -/
def relevanceScore (qws : List String) (it : MemoryItem) : ℚ :=
  let cl := lowerStr it.content
  let tl := it.tags.map lowerStr
  (qws.map (fun w =>
    (if strIn w cl then (1 : ℚ) else 0) +
    (if tl.any (fun t => strIn w t) then (1 : ℚ)/2 else 0))).sum

/-- The content-type and minimum-importance filters of `retrieve_memories`
(src/core/memory.py lines 202-206). -/
def passesFilters (ct : Option String) (minImp : ℚ) (it : MemoryItem) :
    Bool :=
  (match ct with
   | none => true
   | some c => it.content_type = c) && (minImp ≤ it.importance)

/-- The access-bookkeeping mutation of `retrieve_memories`
(src/core/memory.py lines 220-222). -/
def bumpItem (now : Nat) (it : MemoryItem) : MemoryItem :=
  { it with access_count := it.access_count + 1, last_accessed := now }

/-- The retrieval loop of `retrieve_memories` (src/core/memory.py lines
201-224) over the store in dict-insertion order: returns the updated store
together with the matched `(item, relevance)` pairs in iteration order.
Matching items are bumped in place; everything else is untouched. -/
def retrieveScan (qws : List String) (ct : Option String) (minImp : ℚ)
    (now : Nat) : List MemoryItem → List MemoryItem × List (MemoryItem × ℚ)
  | [] => ([], [])
  | it :: rest =>
    let s := retrieveScan qws ct minImp now rest
    if passesFilters ct minImp it then
      let r := relevanceScore qws it
      if 0 < r then (bumpItem now it :: s.1, (bumpItem now it, r) :: s.2)
      else (it :: s.1, s.2)
    else (it :: s.1, s.2)

/-- Sort key of `matching_items.sort(key=lambda x: (x[1], x[0].importance),
reverse=True)` (src/core/memory.py lines 227-230). -/
def memKey (p : MemoryItem × ℚ) : ℚ × ℚ :=
  (p.2, p.1.importance)

/-- Lexicographic order on sort keys. -/
def keyLe (a b : ℚ × ℚ) : Prop :=
  a.1 < b.1 ∨ (a.1 = b.1 ∧ a.2 ≤ b.2)

instance : DecidableRel keyLe := fun a b => by
  unfold keyLe
  exact inferInstance

/-- Helper: `keyLe` is total. -/
theorem keyLe_total (a b : ℚ × ℚ) : keyLe a b ∨ keyLe b a := by
  rcases lt_trichotomy a.1 b.1 with hlt | heq | hgt
  · exact Or.inl (Or.inl hlt)
  · rcases le_total a.2 b.2 with hab | hba
    · exact Or.inl (Or.inr ⟨heq, hab⟩)
    · exact Or.inr (Or.inr ⟨heq.symm, hba⟩)
  · exact Or.inr (Or.inl hgt)

/-- Helper: `keyLe` is transitive. -/
theorem keyLe_trans (a b c : ℚ × ℚ) (hab : keyLe a b) (hbc : keyLe b c) :
    keyLe a c := by
  rcases hab with h1 | ⟨h1, h1'⟩ <;> rcases hbc with h2 | ⟨h2, h2'⟩
  · exact Or.inl (lt_trans h1 h2)
  · exact Or.inl (h2 ▸ h1)
  · exact Or.inl (h1 ▸ h2)
  · exact Or.inr ⟨h1.trans h2, h1'.trans h2'⟩

/-- Python's stable descending sort on `(relevance, importance)`: an earlier
element stays before a later one unless the later one's key is strictly
greater. -/
def pairDesc (a b : MemoryItem × ℚ) : Prop :=
  keyLe (memKey b) (memKey a)

instance : DecidableRel pairDesc := fun a b => by
  unfold pairDesc
  exact inferInstance

instance : IsTotal (MemoryItem × ℚ) pairDesc :=
  ⟨fun a b => (keyLe_total (memKey b) (memKey a)).elim Or.inl Or.inr⟩

instance : IsTrans (MemoryItem × ℚ) pairDesc :=
  ⟨fun a b c hab hbc => keyLe_trans (memKey c) (memKey b) (memKey a) hbc hab⟩

/-- Embedding of `retrieve_memories` (src/core/memory.py lines 190-232):
scan the store, sort the matches by `(relevance, importance)` descending
(stable), truncate to `limit`, and return the matched items together with
the updated store. -/
def retrieveMemories (q : String) (ct : Option String) (minImp : ℚ)
    (limit : Nat) (now : Nat) (store : List MemoryItem) :
    List MemoryItem × List MemoryItem :=
  let s := retrieveScan (queryWords q) ct minImp now store
  let sorted := List.insertionSort pairDesc s.2
  (((sorted.take limit).map Prod.fst), s.1)

/-- Helper: every matched pair carries its item's keyword relevance, which
is positive, and its item passed the filters. -/
theorem retrieveScan_pairs (qws : List String) (ct : Option String)
    (minImp : ℚ) (now : Nat) (store : List MemoryItem) :
    ∀ p ∈ (retrieveScan qws ct minImp now store).2,
      p.2 = relevanceScore qws p.1 ∧ 0 < p.2 ∧
      passesFilters ct minImp p.1 = true := by
  induction store with
  | nil =>
    intro p hp
    simp [retrieveScan] at hp
  | cons it rest ih =>
    intro p hp
    simp only [retrieveScan] at hp
    split at hp
    · split at hp
      · rcases List.mem_cons.1 hp with heq | hmem
        · subst heq
          refine ⟨rfl, by assumption, by assumption⟩
        · exact ih p hmem
      · exact ih p hp
    · exact ih p hp

/-- Helper: the store returned by the retrieval loop is the pointwise
update bumping exactly the filter-passing, positively-relevant items. -/
theorem retrieveScan_fst (qws : List String) (ct : Option String)
    (minImp : ℚ) (now : Nat) (store : List MemoryItem) :
    (retrieveScan qws ct minImp now store).1
      = store.map (fun it =>
          if passesFilters ct minImp it = true ∧ 0 < relevanceScore qws it
          then bumpItem now it else it) := by
  induction store with
  | nil => rfl
  | cons it rest ih =>
    simp only [retrieveScan, List.map_cons]
    by_cases hpass : passesFilters ct minImp it = true
    · by_cases hr : 0 < relevanceScore qws it
      · rw [if_pos hpass, if_pos hr]
        simp [ih, hpass, hr]
      · rw [if_pos hpass, if_neg hr]
        simp [ih, hpass, hr]
    · rw [if_neg hpass]
      simp [ih, hpass]

/-! ### Theorems for claims C1-C4 -/

/-- C1: for the input "緊急のタスクを作成してください" the top-level intent is indeed
"task" and the response sources are `["TaskManager"]`, but — contradicting
the claim and the repository's own tests `test_task_intent_analysis` and
`test_priority_detection` — the task-manager intent analysis matches only
English keywords, so the action is "general" (not "create"), no urgent
priority filter is detected, and for every possible LLM outcome the request
is dispatched to the general-assistance flow, whose actions never contain
"task_created". -/
theorem c1_routing_code_eval :
    analyzeIntentPrimary "緊急のタスクを作成してください" = "task" ∧
    (analyzeTaskIntent "緊急のタスクを作成してください").action = "general" ∧
    (analyzeTaskIntent "緊急のタスクを作成してください").priority = none ∧
    (analyzeTaskIntent "緊急のタスクを作成").priority = none ∧
    (analyzeTaskIntent "新しいタスクを作成してください").action = "general" ∧
    (∀ (lc : Except String TaskInfo) (lg : Except String String)
       (lr ur cr : TaskResult),
      processRequest "緊急のタスクを作成してください" lc lg lr ur cr
        = Except.ok (generalTaskAssistance lg)) ∧
    (∀ lg : Except String String,
      "task_created" ∉ (handleTaskIntent (generalTaskAssistance lg)).actions_taken ∧
      (handleTaskIntent (generalTaskAssistance lg)).sources = ["TaskManager"]) := by
  refine ⟨by decide, by decide, by decide, by decide, by decide, ?_, ?_⟩
  · intro lc lg lr ur cr
    rfl
  · intro lg
    cases lg <;> simp [handleTaskIntent, generalTaskAssistance]

/-- C2: whenever the agent is already running (or its lazy initialization
succeeds) and any stage of the `process_input` pipeline raises — context
update, module routing including the LLM vendor call, the memory store, or
the learning update — `process_input` returns the zero-confidence
`AgentResponse` with a non-empty suggestion list and `metadata["error"]` set
to the error text, and never propagates the exception to the caller. -/
theorem process_input_catches_pipeline_errors
    (running : Bool) (initRes ctxRes storeRes learnRes : Except String Unit)
    (routeRes : Except String AgentResponse) (learnEnabled : Bool) (e : String)
    (hrun : running = true ∨ initRes = Except.ok ())
    (herr : pipelineBody ctxRes routeRes storeRes learnEnabled learnRes
              = Except.error e) :
    processInputM running initRes ctxRes routeRes storeRes learnEnabled learnRes
      = Except.ok (errorResponse e) ∧
    (errorResponse e).confidence = 0 ∧
    (errorResponse e).suggestions ≠ [] ∧
    metaLookup (errorResponse e).metadata "error" = some e := by
  have hinit : (if running then Except.ok () else initRes)
      = Except.ok (ε := String) () := by
    rcases hrun with h | h
    · simp [h]
    · cases running <;> simp [h]
  refine ⟨?_, rfl, by simp [errorResponse], by simp [metaLookup, errorResponse]⟩
  simp [processInputM, hinit, herr]

/-- Witness for C2: the LLM vendor raising during a turn is caught and turned
into the structured error response. -/
theorem process_input_catches_pipeline_errors_witness :
    processInputM true (Except.ok ()) (Except.ok ())
        (Except.error "LLM unavailable") (Except.ok ()) false (Except.ok ())
      = Except.ok (errorResponse "LLM unavailable") ∧
    (errorResponse "LLM unavailable").confidence = 0 ∧
    (errorResponse "LLM unavailable").suggestions ≠ [] ∧
    metaLookup (errorResponse "LLM unavailable").metadata "error"
      = some "LLM unavailable" :=
  process_input_catches_pipeline_errors true (Except.ok ()) (Except.ok ())
    (Except.ok ()) (Except.ok ()) (Except.error "LLM unavailable") false
    "LLM unavailable" (Or.inl rfl) rfl

/-- Concrete in-progress task used to refute the duration clause of C3. -/
def c3Task : Task :=
  { title := "report", status := .in_progress, priority := .medium,
    created_at := 0, updated_at := 5, completed_at := none,
    actual_duration := none }

/-- Counterexample for C3: completing a task that is still `in_progress` at
tick 100 (last update at tick 5) leaves `actual_duration` equal to `none`
rather than the claimed `now - last update = 95`: the in-progress check runs
after the status has been overwritten to completed, so it never fires. -/
theorem c3_counterexample :
    (completeTask 100 [("a", c3Task)] "a").1 = true ∧
    ((lookupAL (completeTask 100 [("a", c3Task)] "a").2 "a").map
        Task.actual_duration) = some none ∧
    some (Option.none (α := Int)) ≠ some (some ((100 : Int) - (5 : Int))) := by
  decide

/-- C3 (amended): `complete_task` on a stored id returns success, sets the
status to completed and stamps both timestamps, but leaves `actual_duration`
unchanged (the in-progress check compares the already-overwritten status, so
the duration branch is dead code); an unknown id returns failure with the
store untouched. -/
theorem complete_task_amended (now : Nat) (ts : List (String × Task))
    (tid : String) :
    (∀ t, lookupAL ts tid = some t →
      (completeTask now ts tid).1 = true ∧
      lookupAL (completeTask now ts tid).2 tid
        = some { t with status := .completed, completed_at := some now,
                        updated_at := now } ∧
      (lookupAL (completeTask now ts tid).2 tid).map Task.actual_duration
        = some t.actual_duration) ∧
    (lookupAL ts tid = none → completeTask now ts tid = (false, ts)) := by
  constructor
  · intro t ht
    have hs : (lookupAL ts tid).isSome = true := by simp [ht]
    have hupd := lookupAL_update ts tid
      { t with status := .completed, completed_at := some now,
               updated_at := now } hs
    refine ⟨?_, ?_, ?_⟩
    · simp [completeTask, ht]
    · simpa [completeTask, ht] using hupd
    · simp [completeTask, ht, hupd]
  · intro ht
    simp [completeTask, ht]

/-- Witness for the amended C3 theorem at a concrete store. -/
theorem complete_task_amended_witness :
    (completeTask 100 [("a", c3Task)] "a").1 = true ∧
    lookupAL (completeTask 100 [("a", c3Task)] "a").2 "a"
      = some { c3Task with status := .completed, completed_at := some 100,
                           updated_at := 100 } ∧
    (lookupAL (completeTask 100 [("a", c3Task)] "a").2 "a").map
        Task.actual_duration = some c3Task.actual_duration :=
  (complete_task_amended 100 [("a", c3Task)] "a").1 c3Task (by decide)

/-- C4: evaluated on the inputs the claim (and the repository's own test
`test_duration_parsing`) prescribes, `_parse_duration` returns no value for
every Japanese duration string — its regexes match only the literal English
words "hour" and "minute" — while an equivalent English phrasing parses;
the code therefore contradicts its own test suite. -/
theorem c4_duration_code_eval :
    parseDurationS "2時間30分" = none ∧
    parseDurationS "1時間" = none ∧
    parseDurationS "45分" = none ∧
    parseDurationS "不明" = none ∧
    parseDurationS "2 hours 30 minutes" = some (2, 30) ∧
    parseDuration (Option.none) = none := by
  decide

/-- C6: for every sequence of context updates, agent-response appends, and
system-event appends, the context history length never exceeds the window
capacity, and an append at capacity evicts exactly the oldest item (by
append order, independent of importance); the short-term memory list obeys
the same bound and eviction order. -/
theorem context_window_bound (cap : Nat) (es : List CtxEvent)
    (mids : List String) :
    (runCtxEvents cap es).length ≤ cap ∧
    (runShortTerm cap mids).length ≤ cap ∧
    (∀ (l : List ContextItem) (x : ContextItem), l.length = cap → 0 < cap →
      pushWindow cap l x = l.drop 1 ++ [x]) ∧
    (∀ (l : List String) (m : String), l.length = cap → 0 < cap →
      pushShortTerm cap l m = l.drop 1 ++ [m]) := by
  refine ⟨runCtx_length_le_aux cap es [] (by simp),
          runShortTerm_length_le_aux cap mids [] (by simp), ?_, ?_⟩
  · intro l x hl hcap
    unfold pushWindow
    have hc : cap < (l ++ [x]).length := by simp [hl]
    rw [if_pos hc]
    have hd : (l ++ [x]).length - cap = 1 := by simp [hl]
    rw [hd]
    exact List.drop_append_of_le_length (by omega)
  · intro l m hl hcap
    unfold pushShortTerm
    have hc : cap < (l ++ [m]).length := by simp [hl]
    rw [if_pos hc]
    exact List.drop_append_of_le_length (by omega)

/-- Counterexample for C5: eleven consecutive backup creations (one more
than the default `max_backups = 10`) leave eleven entries in the history,
because no creation path runs any retention cleanup. -/
theorem c5_counterexample :
    ((List.range 11).foldl
        (fun h i => createBackupHistory h ⟨"full_" ++ toString i, i⟩)
        []).length = 11 ∧
    ¬ ((List.range 11).foldl
        (fun h i => createBackupHistory h ⟨"full_" ++ toString i, i⟩)
        []).length = defaultMaxBackups := by
  decide

/-- C5 (amended): backup creation itself never evicts, so the history can
exceed `max_backups` between initializations; the retention sweep
`_cleanup_old_backups`, run at initialization with a positive `max_backups`
(the default is 10) on a history with distinct backup ids exceeding
`max_backups`, leaves exactly `max_backups` entries, namely all but the
`len - max_backups` oldest-created ones. -/
theorem cleanup_old_backups_retention (maxB : Nat) (h : List BackupInfo)
    (hnd : (h.map BackupInfo.backup_id).Nodup) (hlen : maxB < h.length)
    (hpos : 0 < maxB) :
    (cleanupOldBackups maxB h).length = maxB ∧
    (∀ b, b ∈ cleanupOldBackups maxB h ↔
      b ∈ (List.insertionSort byCreated h).drop (h.length - maxB)) := by
  have hif : ¬ h.length ≤ maxB := by omega
  have hmz : ¬ maxB = 0 := by omega
  have hcl : cleanupOldBackups maxB h
      = h.filter (fun x =>
          !(((List.insertionSort byCreated h).take (h.length - maxB)).any
            (fun b => x.backup_id == b.backup_id))) := by
    unfold cleanupOldBackups
    rw [if_neg hif]
    simp only [if_neg hmz]
    exact foldl_delete_eq_filter _ h
  have hperm : List.Perm (List.insertionSort byCreated h) h :=
    List.perm_insertionSort byCreated h
  have hsplit : (List.insertionSort byCreated h).take (h.length - maxB)
      ++ (List.insertionSort byCreated h).drop (h.length - maxB)
      = List.insertionSort byCreated h :=
    List.take_append_drop _ _
  have hnd_sorted : ((List.insertionSort byCreated h).map
      BackupInfo.backup_id).Nodup :=
    ((hperm.map BackupInfo.backup_id).nodup_iff).2 hnd
  have hnd2 : (((List.insertionSort byCreated h).take (h.length - maxB)).map
        BackupInfo.backup_id
      ++ ((List.insertionSort byCreated h).drop (h.length - maxB)).map
        BackupInfo.backup_id).Nodup := by
    rw [← List.map_append, hsplit]
    exact hnd_sorted
  have hdisj := (List.nodup_append.1 hnd2).2.2
  have hptake : ∀ x ∈ (List.insertionSort byCreated h).take (h.length - maxB),
      ¬ ((fun x =>
        !(((List.insertionSort byCreated h).take (h.length - maxB)).any
          (fun b => x.backup_id == b.backup_id))) x = true) := by
    intro x hx
    simp only [Bool.not_eq_true', Bool.not_eq_false]
    exact List.any_eq_true.2 ⟨x, hx, by simp⟩
  have hpdrop : ∀ x ∈ (List.insertionSort byCreated h).drop (h.length - maxB),
      ((fun x =>
        !(((List.insertionSort byCreated h).take (h.length - maxB)).any
          (fun b => x.backup_id == b.backup_id))) x = true) := by
    intro x hx
    simp only [Bool.not_eq_true', Bool.not_eq_false, List.any_eq_false]
    intro b hb
    intro hxb
    have hxb' : x.backup_id = b.backup_id := by simpa using hxb
    exact hdisj (List.mem_map.2 ⟨b, hb, hxb'.symm⟩)
      (List.mem_map.2 ⟨x, hx, rfl⟩)
  constructor
  · rw [hcl]
    have hpf : List.Perm
        (h.filter (fun x =>
          !(((List.insertionSort byCreated h).take (h.length - maxB)).any
            (fun b => x.backup_id == b.backup_id))))
        ((List.insertionSort byCreated h).filter (fun x =>
          !(((List.insertionSort byCreated h).take (h.length - maxB)).any
            (fun b => x.backup_id == b.backup_id)))) :=
      (hperm.filter _).symm
    rw [hpf.length_eq]
    have hfl : (((List.insertionSort byCreated h).take (h.length - maxB)
          ++ (List.insertionSort byCreated h).drop (h.length - maxB)).filter
          (fun x =>
            !(((List.insertionSort byCreated h).take (h.length - maxB)).any
              (fun b => x.backup_id == b.backup_id))))
        = ((List.insertionSort byCreated h).filter (fun x =>
            !(((List.insertionSort byCreated h).take (h.length - maxB)).any
              (fun b => x.backup_id == b.backup_id)))) := by
      rw [hsplit]
    rw [← hfl, List.filter_append]
    rw [List.filter_eq_nil_iff.2 hptake, List.filter_eq_self.2 hpdrop]
    simp only [List.nil_append, List.length_drop, hperm.length_eq]
    omega
  · intro b
    rw [hcl, List.mem_filter]
    constructor
    · rintro ⟨hbh, hpb⟩
      have hbs : b ∈ List.insertionSort byCreated h := hperm.mem_iff.2 hbh
      rcases List.mem_append.1 (by rw [hsplit]; exact hbs) with hbt | hbd
      · exact absurd hpb (hptake b hbt)
      · exact hbd
    · intro hbd
      refine ⟨hperm.mem_iff.1 ?_, hpdrop b hbd⟩
      rw [← hsplit]
      exact List.mem_append.2 (Or.inr hbd)

/-- Witness for the amended C5 theorem: a three-entry history with cap 2
keeps exactly the two newest backups and evicts the oldest-created one. -/
theorem cleanup_old_backups_retention_witness :
    (cleanupOldBackups 2 [⟨"a", 3⟩, ⟨"b", 1⟩, ⟨"c", 2⟩]).length = 2 ∧
    (⟨"b", 1⟩ : BackupInfo) ∉ cleanupOldBackups 2 [⟨"a", 3⟩, ⟨"b", 1⟩, ⟨"c", 2⟩] := by
  have hthm := cleanup_old_backups_retention 2 [⟨"a", 3⟩, ⟨"b", 1⟩, ⟨"c", 2⟩]
    (by decide) (by decide) (by decide)
  refine ⟨hthm.1, fun hmem => ?_⟩
  have hdrop := (hthm.2 ⟨"b", 1⟩).1 hmem
  exact (by decide : (⟨"b", 1⟩ : BackupInfo)
    ∉ (List.insertionSort byCreated [⟨"a", 3⟩, ⟨"b", 1⟩, ⟨"c", 2⟩]).drop 1) hdrop

/-- Witness for C6: a concrete run at capacity 2 and a concrete eviction of
the oldest entry at capacity. -/
theorem context_window_bound_witness :
    (runCtxEvents 2 [.userInput "a", .agentResponse "b", .systemEvent "c"]).length ≤ 2 ∧
    pushShortTerm 2 ["x", "y"] "z" = ["y", "z"] := by
  refine ⟨(context_window_bound 2 [.userInput "a", .agentResponse "b",
    .systemEvent "c"] []).1, ?_⟩
  have h := (context_window_bound 2 [] []).2.2.2 ["x", "y"] "z" (by decide)
    (by decide)
  simpa using h

/-- C7: for every query and stored memory set, the list returned by
`retrieve_memories` has at most `limit` items, is sorted by
`(relevance, importance)` descending, and contains no item whose keyword
relevance for the query is zero, however high its importance. -/
theorem retrieve_memories_ranking (q : String) (ct : Option String)
    (minImp : ℚ) (limit now : Nat) (store : List MemoryItem) :
    ((retrieveMemories q ct minImp limit now store).1).length ≤ limit ∧
    List.Sorted (fun a b : MemoryItem =>
        keyLe (relevanceScore (queryWords q) b, b.importance)
              (relevanceScore (queryWords q) a, a.importance))
      (retrieveMemories q ct minImp limit now store).1 ∧
    (∀ it, it ∈ (retrieveMemories q ct minImp limit now store).1 →
      0 < relevanceScore (queryWords q) it) := by
  have hsorted : List.Sorted pairDesc
      (List.insertionSort pairDesc
        (retrieveScan (queryWords q) ct minImp now store).2) :=
    List.sorted_insertionSort pairDesc _
  have hperm : List.Perm
      (List.insertionSort pairDesc
        (retrieveScan (queryWords q) ct minImp now store).2)
      (retrieveScan (queryWords q) ct minImp now store).2 :=
    List.perm_insertionSort pairDesc _
  have htake_inv : ∀ p ∈ (List.insertionSort pairDesc
      (retrieveScan (queryWords q) ct minImp now store).2).take limit,
      p.2 = relevanceScore (queryWords q) p.1 ∧ 0 < p.2 ∧
      passesFilters ct minImp p.1 = true := by
    intro p hp
    exact retrieveScan_pairs (queryWords q) ct minImp now store p
      (hperm.mem_iff.1 (List.take_subset _ _ hp))
  refine ⟨?_, ?_, ?_⟩
  · simp only [retrieveMemories, List.length_map, List.length_take]
    exact Nat.min_le_left _ _
  · show List.Sorted _ (((List.insertionSort pairDesc
      (retrieveScan (queryWords q) ct minImp now store).2).take limit).map
        Prod.fst)
    have hpw : List.Pairwise pairDesc
        ((List.insertionSort pairDesc
          (retrieveScan (queryWords q) ct minImp now store).2).take limit) :=
      List.Pairwise.sublist (List.take_sublist _ _) hsorted
    rw [List.Sorted, List.pairwise_map]
    refine hpw.imp_of_mem ?_
    intro a b ha hb hab
    have hia := (htake_inv a ha).1
    have hib := (htake_inv b hb).1
    have : pairDesc a b := hab
    unfold pairDesc memKey at this
    rw [hia, hib] at this
    exact this
  · intro it hit
    simp only [retrieveMemories, List.mem_map] at hit
    rcases hit with ⟨p, hp, hpe⟩
    have h := htake_inv p hp
    rw [← hpe]
    rw [← h.1]
    exact h.2.1

/-- Concrete memory item matching the query "task". -/
def c7ItemA : MemoryItem :=
  ⟨"a", "alpha task", "interaction", 1/2, 1, 0, ["task"]⟩

/-- Concrete high-importance memory item with zero relevance for "task". -/
def c7ItemB : MemoryItem :=
  ⟨"b", "beta", "interaction", 9/10, 1, 0, []⟩

/-- Helper: the concrete query "task" splits into one word. -/
theorem c7_queryWords : queryWords "task" = ["task"] := by decide

/-- Helper: the relevance of the concrete matching item. -/
theorem c7_relevanceA : relevanceScore (queryWords "task") c7ItemA = 3/2 := by
  have h1 : strIn "task" (lowerStr c7ItemA.content) = true := by decide
  have h2 : (c7ItemA.tags.map lowerStr).any (fun t => strIn "task" t)
      = true := by decide
  rw [c7_queryWords]
  simp only [relevanceScore, List.map_cons, List.map_nil, List.sum_cons,
    List.sum_nil, h1, h2, if_true]
  norm_num

/-- Helper: the concrete matching item passes the default filters. -/
theorem c7_passesA : passesFilters none 0 c7ItemA = true := by
  simp only [passesFilters, c7ItemA, Bool.true_and, decide_eq_true_eq]
  norm_num

/-- Helper: evaluation of the retrieval scan on the concrete two-item
store. -/
theorem c7_scan : retrieveScan (queryWords "task") none 0 5 [c7ItemA, c7ItemB]
    = ([bumpItem 5 c7ItemA, c7ItemB], [(bumpItem 5 c7ItemA, 3/2)]) := by
  have hrB : relevanceScore (queryWords "task") c7ItemB = 0 := by
    have h1 : strIn "task" (lowerStr "beta") = false := by decide
    rw [c7_queryWords]
    simp [relevanceScore, c7ItemB, h1]
  have hpB : passesFilters none 0 c7ItemB = true := by
    simp only [passesFilters, c7ItemB, Bool.true_and, decide_eq_true_eq]
    norm_num
  simp only [retrieveScan, c7_relevanceA, c7_passesA, hrB, hpB, if_true]
  norm_num

/-- Helper: evaluation of `retrieve_memories` on the concrete store. -/
theorem c7_retrieve : retrieveMemories "task" none 0 10 5 [c7ItemA, c7ItemB]
    = ([bumpItem 5 c7ItemA], [bumpItem 5 c7ItemA, c7ItemB]) := by
  simp [retrieveMemories, c7_scan, List.insertionSort]

/-- Witness for C7: on a concrete two-item store, the matching item is
returned with positive relevance. -/
theorem retrieve_memories_ranking_witness :
    0 < relevanceScore (queryWords "task") (bumpItem 5 c7ItemA) :=
  (retrieve_memories_ranking "task" none 0 10 5 [c7ItemA, c7ItemB]).2.2
    (bumpItem 5 c7ItemA) (by rw [c7_retrieve]; exact List.mem_cons_self _ _)

/-- C8: for every content string, content type, and metadata, the computed
importance lies in `[base_importance(content_type), 1]`; in particular a
"preference" item always scores at least 0.8 and never more than 1. -/
theorem importance_bounds (content : String) (ct : String)
    (md : Option MetaInfo) :
    baseImportance ct ≤ calcImportance content ct md ∧
    calcImportance content ct md ≤ 1 ∧
    (ct = "preference" → 4/5 ≤ calcImportance content ct md) := by
  have hlen : (0 : ℚ) ≤ min ((content.length : ℚ) / 1000) 1 * (1/5) := by
    have h0 : (0 : ℚ) ≤ (content.length : ℚ) / 1000 := by positivity
    have h1 : (0 : ℚ) ≤ min ((content.length : ℚ) / 1000) 1 :=
      le_min h0 (by norm_num)
    positivity
  have hmeta : (0 : ℚ) ≤ (match md with
      | none => 0
      | some m =>
        (if (8 : ℚ)/10 < m.confidence.getD 0 then (1 : ℚ)/10 else 0) +
        (if m.user_feedback = some "positive" then (1 : ℚ)/5 else 0)) := by
    match md with
    | none => norm_num
    | some m =>
      have ha : (0 : ℚ) ≤ (if (8 : ℚ)/10 < m.confidence.getD 0
          then (1 : ℚ)/10 else 0) := by positivity
      have hb : (0 : ℚ) ≤ (if m.user_feedback = some "positive"
          then (1 : ℚ)/5 else 0) := by positivity
      exact add_nonneg ha hb
  have hbase_le : baseImportance ct ≤ 1 := by
    unfold baseImportance
    split <;> try norm_num
    split <;> try norm_num
    split <;> try norm_num
    split <;> norm_num
  have hlower : baseImportance ct ≤ calcImportance content ct md := by
    unfold calcImportance
    refine le_min ?_ hbase_le
    calc baseImportance ct = baseImportance ct + 0 + 0 := by ring
    _ ≤ _ := by
      apply add_le_add
      · exact add_le_add_left hlen _
      · exact hmeta
  refine ⟨hlower, ?_, ?_⟩
  · unfold calcImportance
    exact min_le_right _ _
  · intro hct
    have : baseImportance ct = 4/5 := by rw [hct]; rfl
    rw [← this]
    exact hlower

/-- Witness for C8: a concrete "preference" item scores between 0.8 and 1. -/
theorem importance_bounds_witness :
    (4 : ℚ)/5 ≤ calcImportance "likes tea" "preference" none ∧
    calcImportance "likes tea" "preference" none ≤ 1 :=
  ⟨(importance_bounds "likes tea" "preference" none).2.2 rfl,
   (importance_bounds "likes tea" "preference" none).2.1⟩

/-- C9: every call to `retrieve_memories` bumps `access_count` and refreshes
`last_accessed` on exactly the stored items that pass the content-type and
minimum-importance filters with positive keyword relevance — independently
of the `limit` truncation, so also on matched items that are not returned —
and leaves every other item unchanged. -/
theorem retrieve_memories_access_bookkeeping (q : String)
    (ct : Option String) (minImp : ℚ) (limit now : Nat)
    (store : List MemoryItem) :
    (retrieveMemories q ct minImp limit now store).2
      = store.map (fun it =>
          if passesFilters ct minImp it = true ∧
             0 < relevanceScore (queryWords q) it
          then bumpItem now it else it) ∧
    (∀ limit2 : Nat, (retrieveMemories q ct minImp limit2 now store).2
      = (retrieveMemories q ct minImp limit now store).2) ∧
    (∀ it, it ∈ store → passesFilters ct minImp it = true →
      0 < relevanceScore (queryWords q) it →
      bumpItem now it ∈ (retrieveMemories q ct minImp limit now store).2) := by
  have hfst : ∀ lim : Nat, (retrieveMemories q ct minImp lim now store).2
      = (retrieveScan (queryWords q) ct minImp now store).1 := fun _ => rfl
  refine ⟨?_, ?_, ?_⟩
  · rw [hfst limit]
    exact retrieveScan_fst (queryWords q) ct minImp now store
  · intro limit2
    rw [hfst limit2, hfst limit]
  · intro it hit hpass hrel
    rw [hfst limit, retrieveScan_fst (queryWords q) ct minImp now store]
    exact List.mem_map.2 ⟨it, hit, by rw [if_pos ⟨hpass, hrel⟩]⟩

/-- Witness for C9: with `limit = 0` nothing is returned, yet the matching
item's bookkeeping is still bumped in the store. -/
theorem retrieve_memories_access_bookkeeping_witness :
    bumpItem 5 c7ItemA ∈ (retrieveMemories "task" none 0 0 5
      [c7ItemA, c7ItemB]).2 :=
  (retrieve_memories_access_bookkeeping "task" none 0 0 5
    [c7ItemA, c7ItemB]).2.2 c7ItemA (List.mem_cons_self _ _) c7_passesA
    (by rw [c7_relevanceA]; norm_num)

/-! ### Two-tier cache (`src/storage/cache.py`) -/

/-- Embedding of the `CacheItem` dataclass (src/storage/cache.py lines
16-24). -/
structure CacheItem (V : Type) where
  value : V
  expires_at : Option Nat
  access_count : Nat
  last_accessed : Nat
deriving DecidableEq

/-- Access bookkeeping of `_get_memory_cache` (src/storage/cache.py lines
316-318). -/
def bumpCacheItem {V : Type} (now : Nat) (it : CacheItem V) : CacheItem V :=
  { it with access_count := it.access_count + 1, last_accessed := now }

/-- Embedding of `_get_memory_cache` (src/storage/cache.py lines 303-320):
absent key misses; an entry whose expiry has passed is deleted and misses;
otherwise the access bookkeeping is bumped and the value returned. -/
def getMemoryCache {V : Type} (now : Nat)
    (m : List (String × CacheItem V)) (k : String) :
    Option V × List (String × CacheItem V) :=
  match lookupAL m k with
  | none => (none, m)
  | some item =>
    match item.expires_at with
    | some t =>
      if t ≤ now then (none, eraseAL m k)
      else (some item.value, updateAL m k (bumpCacheItem now item))
    | none => (some item.value, updateAL m k (bumpCacheItem now item))

/-- Ordering by last access used by the LRU eviction. -/
def byLastAccessed {V : Type} (a b : String × CacheItem V) : Prop :=
  a.2.last_accessed ≤ b.2.last_accessed

instance {V : Type} : DecidableRel (byLastAccessed (V := V)) :=
  fun a b => Nat.decLe a.2.last_accessed b.2.last_accessed

/-- Embedding of `_evict_memory_cache` (src/storage/cache.py lines
322-336): the oldest-accessed quarter of the entries is deleted. -/
def evictMemoryCache {V : Type} (m : List (String × CacheItem V)) :
    List (String × CacheItem V) :=
  let sorted := List.insertionSort byLastAccessed m
  ((sorted.take (m.length / 4)).map Prod.fst).foldl
    (fun acc key => eraseAL acc key) m

/-- Embedding of `_set_memory_cache` (src/storage/cache.py lines 282-301):
evict when at capacity, then store a fresh `CacheItem` with the supplied
absolute expiry (which is `None` — no expiry — when the caller omits it). -/
def setMemoryCache {V : Type} (maxSize now : Nat)
    (m : List (String × CacheItem V)) (k : String) (v : V)
    (expires : Option Nat) : List (String × CacheItem V) :=
  let m1 := if maxSize ≤ m.length then evictMemoryCache m else m
  insertAL m1 k ⟨v, expires, 1, now⟩

/-- Embedding of `get` (src/storage/cache.py lines 98-124): the in-process
tier is consulted first; on a miss, a value found in the remote tier is
returned and back-filled into the in-process tier via `_set_memory_cache`
with no expiry argument. -/
def cacheGet {V : Type} (enableMem : Bool) (maxSize now : Nat)
    (redis : String → Option V) (m : List (String × CacheItem V))
    (k : String) : Option V × List (String × CacheItem V) :=
  let g := if enableMem then getMemoryCache now m k else (none, m)
  match g.1 with
  | some v => (some v, g.2)
  | none =>
    match redis k with
    | some v =>
      (some v, if enableMem then setMemoryCache maxSize now g.2 k v none
               else g.2)
    | none => (none, g.2)

/-- Embedding of `get_ttl` (src/storage/cache.py lines 172-193): an
in-process entry answers first — remaining seconds clamped at 0, or −1 for
an entry with no expiry; otherwise the remote tier is asked. -/
def cacheGetTtl {V : Type} (enableMem : Bool) (now : Nat)
    (redisTtl : String → Option Int) (m : List (String × CacheItem V))
    (k : String) : Option Int :=
  match (if enableMem then lookupAL m k else none) with
  | some item =>
    match item.expires_at with
    | some t => some (max 0 ((t : Int) - (now : Int)))
    | none => some (-1)
  | none => redisTtl k

/-- Embedding of `exists` (src/storage/cache.py lines 147-170): an
unexpired or expiry-free in-process entry answers true; an expired entry is
lazily deleted and the remote tier is asked; otherwise the remote tier is
asked. -/
def cacheExists {V : Type} (enableMem : Bool) (now : Nat)
    (redisEx : String → Bool) (m : List (String × CacheItem V))
    (k : String) : Bool × List (String × CacheItem V) :=
  match (if enableMem then lookupAL m k else none) with
  | some item =>
    match item.expires_at with
    | some t => if now < t then (true, m) else (redisEx k, eraseAL m k)
    | none => (true, m)
  | none => (redisEx k, m)

/-- C10: whenever `get(key)` misses the in-process tier (absent or expired
entry) and finds a value in the remote tier, the value is back-filled into
the in-process tier with no expiry, so that afterwards `get_ttl` answered
from the in-process tier returns −1 and `exists` reports the key present,
at any later time and regardless of the TTL the value was originally set
with. -/
theorem cache_backfill_no_expiry {V : Type} (maxSize now now2 : Nat)
    (redis : String → Option V) (redisTtl : String → Option Int)
    (redisEx : String → Bool) (m : List (String × CacheItem V)) (k : String)
    (v : V)
    (hmiss : (getMemoryCache now m k).1 = none)
    (hredis : redis k = some v) :
    (cacheGet true maxSize now redis m k).1 = some v ∧
    lookupAL (cacheGet true maxSize now redis m k).2 k
      = some ⟨v, none, 1, now⟩ ∧
    cacheGetTtl true now2 redisTtl (cacheGet true maxSize now redis m k).2 k
      = some (-1) ∧
    (cacheExists true now2 redisEx
      (cacheGet true maxSize now redis m k).2 k).1 = true := by
  have hget : cacheGet true maxSize now redis m k
      = (some v,
         setMemoryCache maxSize now (getMemoryCache now m k).2 k v none) := by
    simp [cacheGet, hmiss, hredis]
  have hlook : lookupAL
      (setMemoryCache maxSize now (getMemoryCache now m k).2 k v none) k
      = some ⟨v, none, 1, now⟩ := by
    unfold setMemoryCache
    exact lookupAL_insert _ _ _
  refine ⟨by rw [hget], ?_, ?_, ?_⟩
  · rw [hget]
    exact hlook
  · rw [hget]
    simp [cacheGetTtl, hlook]
  · rw [hget]
    simp [cacheExists, hlook]

/-- Witness for C10: a concrete expired in-process entry plus a remote hit;
after `get`, the in-process entry has no expiry, `get_ttl` answers −1 and
`exists` answers true. -/
theorem cache_backfill_no_expiry_witness :
    (cacheGet true 1000 5 (fun s => if s = "k" then some "val" else none)
      [("k", ⟨"old", some 3, 1, 0⟩)] "k").1 = some "val" ∧
    lookupAL (cacheGet true 1000 5
      (fun s => if s = "k" then some "val" else none)
      [("k", ⟨"old", some 3, 1, 0⟩)] "k").2 "k"
      = some ⟨"val", none, 1, 5⟩ ∧
    cacheGetTtl true 99 (fun _ => none)
      (cacheGet true 1000 5 (fun s => if s = "k" then some "val" else none)
        [("k", ⟨"old", some 3, 1, 0⟩)] "k").2 "k" = some (-1) ∧
    (cacheExists true 99 (fun _ => false)
      (cacheGet true 1000 5 (fun s => if s = "k" then some "val" else none)
        [("k", ⟨"old", some 3, 1, 0⟩)] "k").2 "k").1 = true :=
  cache_backfill_no_expiry 1000 5 99
    (fun s => if s = "k" then some "val" else none) (fun _ => none)
    (fun _ => false) [("k", ⟨"old", some 3, 1, 0⟩)] "k" "val" (by decide) rfl

end Spec2Proof
